import Mathlib

/-!
Verification development for the structured-lessons knowledge base
(`scripts/tools/lessons_lib.py`, `scripts/tools/promote_lesson.py`,
`scripts/tools/agent_lessons_preflight.py`).

The Python code is shallowly embedded: each Python helper becomes an
executable Lean definition with the same name where possible.  Python
strings are Lean `String`s, but every text operation the code performs
(lower-casing, stripping, splitting, substring search, lexicographic
comparison) is re-implemented over `String.data` so that all
definitions evaluate inside the kernel.  Python `list.sort`, which is a
stable sort by key, is modelled by a stable insertion sort
(`sortByLE`).  Python dictionaries read with `.get` are modelled either
as association lists (front matter, stats) or as fields holding the
post-default value.  Dates are modelled by the proleptic Gregorian
ordinal (the value of Python `date.toordinal`), with ISO `YYYY-MM-DD`
parsing re-implemented; the wall clock (`date.today`,
`datetime.utcnow`) is passed in as an explicit parameter.
-/

namespace Lessons

/-! ### Python string primitives over `List Char` -/

/-- Lexicographic less-or-equal on character lists, by code point;
models Python string comparison. -/
def strLeb : List Char → List Char → Bool
  | [], _ => true
  | _ :: _, [] => false
  | a :: as, b :: bs => if a < b then true else if b < a then false else strLeb as bs

/-- Python `a <= b` on strings. -/
def strLe (a b : String) : Bool := strLeb a.data b.data

/-- Python `str.lower()` (ASCII range, which is all the code relies on). -/
def pyLower (s : String) : String := String.mk (s.data.map Char.toLower)

/-- Strip leading and trailing whitespace from a character list. -/
def stripChars (l : List Char) : List Char :=
  ((l.dropWhile Char.isWhitespace).reverse.dropWhile Char.isWhitespace).reverse

/-- Python `str.strip()`. -/
def pyStrip (s : String) : String := String.mk (stripChars s.data)

/-- Split a character list on every occurrence of one separator
character, keeping empty pieces; models Python `str.split(sep)` for a
one-character separator. -/
def splitChar (sep : Char) : List Char → List Char → List (List Char)
  | [], acc => [acc.reverse]
  | c :: rest, acc =>
    if c = sep then acc.reverse :: splitChar sep rest []
    else splitChar sep rest (c :: acc)

/-- Python `s.split(sep)` for a one-character separator. -/
def pySplit (sep : Char) (s : String) : List String :=
  (splitChar sep s.data []).map String.mk

/-- Does the first list occur at the head of the second one. -/
def headMatches : List Char → List Char → Bool
  | [], _ => true
  | _ :: _, [] => false
  | a :: as, b :: bs => a = b && headMatches as bs

/-- Python `needle in hay` (contiguous substring search). -/
def containsSub (needle : List Char) : List Char → Bool
  | [] => headMatches needle []
  | c :: rest => headMatches needle (c :: rest) || containsSub needle rest

/-- Python `needle in hay` on strings. -/
def pyInStr (needle hay : String) : Bool := containsSub needle.data hay.data

/-- Python `s.startswith(p)`. -/
def pyStartsWith (s p : String) : Bool := headMatches p.data s.data

/-- Python `", ".join(xs)` style joining. -/
def joinSep (sep : String) : List String → String
  | [] => ""
  | [x] => x
  | x :: rest => x ++ sep ++ joinSep sep rest

/-- Drop the first n characters of a string; models Python `s[n:]`
for a nonnegative index. -/
def pyDrop (s : String) (n : Nat) : String := String.mk (s.data.drop n)

/-! ### Stable sorting, modelling Python `list.sort` -/

/-- Insert an element in front of the first position whose element does
not have to stay before it; together with `sortByLE` this is the usual
stable insertion sort. -/
def insertByLE {α : Type} (le : α → α → Bool) (a : α) : List α → List α
  | [] => [a]
  | b :: l => if le a b then a :: b :: l else b :: insertByLE le a l

/-- Stable sort by a boolean total preorder; models Python
`list.sort(key=...)`, which is stable.  Sorting with the reversed
comparator models `list.sort(key=..., reverse=True)`, which is also
stable. -/
def sortByLE {α : Type} (le : α → α → Bool) : List α → List α
  | [] => []
  | a :: l => insertByLE le a (sortByLE le l)

/-- Compare two integers, falling through to a continuation on equality;
building block for Python tuple-key comparisons. -/
def thenCmpInt (x y : Int) (k : Bool) : Bool :=
  if x < y then true else if y < x then false else k

/-- Lexicographic less-or-equal on an `(Int, Int, String)` key, exactly
the shape of the sort keys used by the preflight script. -/
def key3Le (a b : Int × Int × String) : Bool :=
  thenCmpInt a.1 b.1 (thenCmpInt a.2.1 b.2.1 (strLe a.2.2 b.2.2))

/-! ### Dates: `datetime.date` as proleptic Gregorian ordinals -/

/-- Is the year a Gregorian leap year. -/
def isLeap (y : Nat) : Bool := (y % 4 = 0 && y % 100 ≠ 0) || y % 400 = 0

/-- Number of days in a month. -/
def daysInMonth (y m : Nat) : Nat :=
  if m = 2 then (if isLeap y then 29 else 28)
  else if m = 4 ∨ m = 6 ∨ m = 9 ∨ m = 11 then 30
  else 31

/-- Days in the months before month m of year y. -/
def daysBeforeMonth (y m : Nat) : Nat :=
  (List.range (m - 1)).foldl (fun acc i => acc + daysInMonth y (i + 1)) 0

/-- Python `date.toordinal()`: day 1 is 0001-01-01. -/
def toOrdinal (y m d : Nat) : Nat :=
  365 * (y - 1) + (y - 1) / 4 - (y - 1) / 100 + (y - 1) / 400 + daysBeforeMonth y m + d

/-- Parse the digits of a character list as a natural number. -/
def digitsToNat (l : List Char) : Nat :=
  l.foldl (fun acc c => acc * 10 + (c.toNat - 48)) 0

/-- Parse an ISO `YYYY-MM-DD` calendar date, returning its components;
models `datetime.date.fromisoformat` restricted to the dashed form the
repository uses (other accepted spellings of the same dates are out of
scope; an unparsable value maps to `none` either way). -/
def parseISODate (s : String) : Option (Nat × Nat × Nat) :=
  match pySplit (Char.ofNat 45) s with
  | [ys, ms, ds] =>
    if ys.data.length = 4 ∧ ms.data.length = 2 ∧ ds.data.length = 2 ∧
        (ys.data ++ ms.data ++ ds.data).all Char.isDigit then
      let y := digitsToNat ys.data
      let m := digitsToNat ms.data
      let d := digitsToNat ds.data
      if 1 ≤ y ∧ 1 ≤ m ∧ m ≤ 12 ∧ 1 ≤ d ∧ d ≤ daysInMonth y m then
        some (y, m, d)
      else none
    else none
  | _ => none

/-- Python `parse_iso_date` from the preflight script: strip, then try
`date.fromisoformat`; the result is kept as an ordinal. -/
def parse_iso_date (raw : String) : Option Nat :=
  match parseISODate (pyStrip raw) with
  | some (y, m, d) => some (toOrdinal y m d)
  | none => none

/-! ### lessons_lib.py: constants and normalization -/

/-- LEVELS from lessons_lib.py. -/
def LEVELS : List String := ["case", "pattern", "principle"]

/-- STATUS_VALUES from lessons_lib.py. -/
def STATUS_VALUES : List String := ["candidate", "validated", "canonical", "retired"]

/-- Python `LEVEL_ORDER.get(lvl, d)`: index of a level in LEVELS, or a
default for unknown levels. -/
def levelOrderD (lvl : String) (d : Int) : Int :=
  if lvl = "case" then 0
  else if lvl = "pattern" then 1
  else if lvl = "principle" then 2
  else d

/-- Scalar values produced by `parse_scalar` for front-matter fields;
the embedding takes documents at the post-`parse_frontmatter` boundary,
so metadata is a mapping from keys to these values. -/
inductive MetaVal where
  | vstr (s : String)
  | vint (n : Int)
  | vbool (b : Bool)
  | vlist (l : List String)
deriving DecidableEq

/-- Python truthiness of a front-matter value, used by the
`metadata.get(k) or fallback` idiom. -/
def truthy : MetaVal → Bool
  | .vstr s => s ≠ ""
  | .vint n => n ≠ 0
  | .vbool b => b
  | .vlist l => l ≠ []

/-- Python `str(v)` on a front-matter value. -/
def pyStr : MetaVal → String
  | .vstr s => s
  | .vint n => toString n
  | .vbool b => if b then "True" else "False"
  | .vlist l => "[" ++ joinSep ", " (l.map (fun x => String.mk ([Char.ofNat 39] ++ x.data ++ [Char.ofNat 39]))) ++ "]"

/-- Front-matter mapping: an insertion-ordered dictionary with unique
keys, modelled as an association list. -/
abbrev Meta : Type := List (String × MetaVal)

/-- Dictionary lookup `metadata.get(k)`; the last binding wins, as in a
Python dict built by successive assignments. -/
def metaGet (m : Meta) (k : String) : Option MetaVal :=
  (List.find? (fun p => p.1 = k) (List.reverse m)).map (fun p => p.2)

/-- Python `metadata.get(k) or dflt` where dflt is a string. -/
def metaGetOr (m : Meta) (k : String) (dflt : String) : MetaVal :=
  match metaGet m k with
  | some v => if truthy v then v else .vstr dflt
  | none => .vstr dflt

/-- Python `int(v)` on a front-matter value (or `None` when the key is
absent): succeeds on ints and bools; on a string, accepts an optional
sign followed by digits after stripping; fails otherwise. -/
def metaToInt : Option MetaVal → Option Int
  | none => none
  | some (.vint n) => some n
  | some (.vbool b) => some (if b then 1 else 0)
  | some (.vlist _) => none
  | some (.vstr s) =>
    let t := stripChars s.data
    match t with
    | c :: rest =>
      if c = Char.ofNat 45 then
        if rest ≠ [] ∧ rest.all Char.isDigit then some (-(digitsToNat rest : Int)) else none
      else if c = Char.ofNat 43 then
        if rest ≠ [] ∧ rest.all Char.isDigit then some (digitsToNat rest : Int) else none
      else if t.all Char.isDigit then some (digitsToNat t : Int) else none
    | [] => none

/-- Python `sorted(set_of_strings)`: deduplicate then sort ascending. -/
def sortedSet (l : List String) : List String := sortByLE strLe l.dedup

/-- clamp_score from lessons_lib.py; the `Option Int` argument is the
outcome of the `int(value)` attempt (`none` when it raises). -/
def clamp_score (value : Option Int) (fallback : Int) : Int :=
  let ivalue := value.getD fallback
  if ivalue < 1 then 1 else if ivalue > 5 then 5 else ivalue

/-- normalize_tags from lessons_lib.py. -/
def normalize_tags : Option MetaVal → List String
  | none => []
  | some (.vstr s) =>
    sortedSet ((((pySplit (Char.ofNat 44) s).map pyStrip).filter (fun x => x ≠ "")).map pyLower)
  | some (.vlist l) =>
    sortedSet (((l.map pyStrip).filter (fun x => x ≠ "")).map pyLower)
  | some (.vint _) => []
  | some (.vbool _) => []

/-- normalize_case_ids from lessons_lib.py. -/
def normalize_case_ids : Option MetaVal → List String
  | none => []
  | some (.vstr s) =>
    sortedSet (((pySplit (Char.ofNat 44) s).map pyStrip).filter (fun x => x ≠ ""))
  | some (.vlist l) =>
    sortedSet ((l.map pyStrip).filter (fun x => x ≠ ""))
  | some (.vint _) => []
  | some (.vbool _) => []

/-- valid_date_or_today from lessons_lib.py; `today` is the current
date in ISO form. -/
def valid_date_or_today (raw : Option MetaVal) (today : String) : String :=
  match raw with
  | some (.vstr s) =>
    let txt := pyStrip s
    if txt ≠ "" ∧ (parseISODate txt).isSome then txt else today
  | _ => today

/-- FOLDER_TO_LEVEL.get(parent.lower(), "case"): detect_level from
lessons_lib.py, taking the name of the containing directory. -/
def detect_level (parentName : String) : String :=
  let p := pyLower parentName
  if p = "cases" then "case"
  else if p = "patterns" then "pattern"
  else if p = "principles" then "principle"
  else "case"

/-- Python `str.title()` on the id fallback (words made of letters get
an upper-case initial and lower-case rest). -/
def titleCaseChars : List Char → Bool → List Char
  | [], _ => []
  | c :: rest, prevAlpha =>
    (if c.isAlpha then (if prevAlpha then c.toLower else c.toUpper) else c) ::
      titleCaseChars rest c.isAlpha

/-- Python `fid.replace("-", " ").strip().title()`. -/
def titleFromId (fid : String) : String :=
  String.mk (titleCaseChars (stripChars (fid.data.map (fun c => if c = Char.ofNat 45 then ' ' else c))) false)

/-- The scan loop inside extract_title_summary: remember the last
`# `-heading seen, stop at the first non-blank non-heading line. -/
def extractLoop : List String → String → String × String
  | [], title => (title, "")
  | line :: rest, title =>
    let s := pyStrip line
    if s = "" then extractLoop rest title
    else if pyStartsWith s "# " then extractLoop rest (pyStrip (pyDrop s 2))
    else if pyStartsWith s "#" then extractLoop rest title
    else (title, s)

/-- extract_title_summary from lessons_lib.py; the body is its list of
lines. -/
def extract_title_summary (body : List String) (fallback_id : String) : String × String :=
  let p := extractLoop body ""
  if p.1 = "" then (titleFromId fallback_id, p.2) else p

/-- One stored lesson document, taken at the post-parse boundary: the
name of its parent directory, its filename stem, its path relative to
the parent of the corpus root, its front matter and its body lines. -/
structure RawLesson where
  parentName : String
  stem : String
  relPath : String
  meta : List (String × MetaVal)
  body : List String
deriving DecidableEq

/-- The canonical lesson record (normalize_lesson_entry output and the
unit stored in the index artifact). -/
structure Entry where
  id : String
  level : String
  status : String
  tags : List String
  confidence : Int
  transferability : Int
  source_case_ids : List String
  last_validated_at : String
  title : String
  summary : String
  path : String
deriving DecidableEq

/-- normalize_lesson_entry from lessons_lib.py; `today` is the current
ISO date used by valid_date_or_today. -/
def normalize_lesson_entry (today : String) (f : RawLesson) : Entry :=
  let inferred := detect_level f.parentName
  let id0 := pyStrip (pyStr (metaGetOr f.meta "id" f.stem))
  let lesson_id := if id0 = "" then f.stem else id0
  let level0 := pyStrip (pyLower (pyStr (metaGetOr f.meta "level" inferred)))
  let level := if level0 ∈ LEVELS then level0 else inferred
  let status0 := pyStrip (pyLower (pyStr (metaGetOr f.meta "status" "candidate")))
  let status := if status0 ∈ STATUS_VALUES then status0 else "candidate"
  let ts := extract_title_summary f.body lesson_id
  { id := lesson_id
    level := level
    status := status
    tags := normalize_tags (metaGet f.meta "tags")
    confidence := clamp_score (metaToInt (metaGet f.meta "confidence")) 3
    transferability := clamp_score (metaToInt (metaGet f.meta "transferability")) 3
    source_case_ids := normalize_case_ids (metaGet f.meta "source_case_ids")
    last_validated_at := valid_date_or_today (metaGet f.meta "last_validated_at") today
    title := pyStrip (pyStr (metaGetOr f.meta "title" ts.1))
    summary := pyStrip (pyStr (metaGetOr f.meta "summary" ts.2))
    path := f.relPath }

/-- The corpus as seen by collect_lessons: the documents found under
each of the three fixed folders, already in the deterministic
`sorted(rglob)` walk order, plus the name of the corpus root directory
(used only to build paths of newly written documents). -/
structure Corpus where
  rootName : String
  cases : List RawLesson
  patterns : List RawLesson
  principles : List RawLesson
deriving DecidableEq

/-- All documents in walk order (cases, then patterns, then
principles). -/
def Corpus.allRaw (c : Corpus) : List RawLesson :=
  c.cases ++ c.patterns ++ c.principles

/-- The final ordering of collect_lessons:
`key=(LEVEL_ORDER.get(level, 99), id)` ascending. -/
def entrySortLE (a b : Entry) : Bool :=
  thenCmpInt (levelOrderD a.level 99) (levelOrderD b.level 99) (strLe a.id b.id)

/-- collect_lessons from lessons_lib.py: normalize every document, then
sort by `(levelRank, id)`. -/
def collect_lessons (today : String) (c : Corpus) : List Entry :=
  sortByLE entrySortLE (c.allRaw.map (normalize_lesson_entry today))

/-- Python `m[k] = m.get(k, 0) + 1` on an insertion-ordered dict. -/
def bump : List (String × Nat) → String → List (String × Nat)
  | [], k => [(k, 1)]
  | (k0, v) :: rest, k =>
    if k0 = k then (k0, v + 1) :: rest else (k0, v) :: bump rest k

/-- The stats block of the index artifact. -/
structure Stats where
  total : Nat
  byLevel : List (String × Nat)
  byStatus : List (String × Nat)
deriving DecidableEq

/-- The index artifact. -/
structure IndexArtifact where
  schemaVersion : String
  generatedAt : String
  stats : Stats
  lessons : List Entry
deriving DecidableEq

/-- build_index from lessons_lib.py; `now` is the wall-clock timestamp
written into generatedAt. -/
def build_index (now : String) (entries : List Entry) : IndexArtifact :=
  let st0 : Stats :=
    { total := entries.length
      byLevel := LEVELS.map (fun l => (l, 0))
      byStatus := STATUS_VALUES.map (fun s => (s, 0)) }
  let st := entries.foldl
    (fun acc e => { acc with byLevel := bump acc.byLevel e.level, byStatus := bump acc.byStatus e.status })
    st0
  { schemaVersion := "1.0.0", generatedAt := now, stats := st, lessons := entries }

/-- slugify from lessons_lib.py: lower-case, collapse runs of
non-alphanumeric characters to single hyphens, strip hyphens, default
to "lesson". -/
def isSlugChar (c : Char) : Bool :=
  (Char.ofNat 97 ≤ c && c ≤ Char.ofNat 122) || (Char.ofNat 48 ≤ c && c ≤ Char.ofNat 57)

/-- Collapse every maximal run of non-slug characters to one hyphen. -/
def collapseNonSlug : List Char → Bool → List Char
  | [], _ => []
  | c :: rest, inRun =>
    if isSlugChar c then c :: collapseNonSlug rest false
    else if inRun then collapseNonSlug rest true
    else Char.ofNat 45 :: collapseNonSlug rest true

/-- Python `s.strip("-")`. -/
def stripHyphens (l : List Char) : List Char :=
  ((l.dropWhile (fun c => c = Char.ofNat 45)).reverse.dropWhile (fun c => c = Char.ofNat 45)).reverse

/-- slugify from lessons_lib.py. -/
def slugify (text : String) : String :=
  let slug := String.mk (stripHyphens (collapseNonSlug (pyLower text).data false))
  if slug = "" then "lesson" else slug

/-! ### promote_lesson.py -/

/-- The target level flag; argparse restricts it to these two choices. -/
inductive TargetLevel where
  | pattern
  | principle
deriving DecidableEq

/-- The target level as a string. -/
def TargetLevel.name : TargetLevel → String
  | .pattern => "pattern"
  | .principle => "principle"

/-- Python `args.target_level.title()`. -/
def TargetLevel.titled : TargetLevel → String
  | .pattern => "Pattern"
  | .principle => "Principle"

/-- LEVEL_TO_FOLDER from lessons_lib.py, on the two promotable target
levels. -/
def TargetLevel.folder : TargetLevel → String
  | .pattern => "patterns"
  | .principle => "principles"

/-- The command-line arguments of promote_lesson.py that drive the
promotion logic. -/
structure PromoteArgs where
  source_id : String
  target_level : TargetLevel
  new_id : String
  title : String
  source_case_ids : List String
  force : Bool
deriving DecidableEq

/-- The failure taxonomy of a promotion call (each corresponds to one
`raise SystemExit(...)` site in promote_lesson.py). -/
inductive PromoteError where
  | notFound
  | invalidTransition
  | insufficientProvenance
  | conflict
deriving DecidableEq

/-- The metadata dict written into the promoted document. -/
structure LessonMeta where
  id : String
  level : String
  status : String
  tags : List String
  confidence : Int
  transferability : Int
  source_case_ids : List String
  last_validated_at : String
  title : String
  summary : String
deriving DecidableEq

/-- The filesystem state promote_lesson.py touches: the lessons corpus
and the (derived) index artifact. -/
structure PromoteState where
  corpus : Corpus
  index : Option IndexArtifact
deriving DecidableEq

/-- Outcome of one promotion call: the state after the call, the error
(if any) and the metadata of the document that was written (if any). -/
structure PromoteResult where
  state : PromoteState
  error : Option PromoteError
  written : Option LessonMeta

/-- Python `by_id = {e["id"]: e for e in entries}; by_id.get(sid)`: the
last entry carrying the id wins. -/
def findSource (entries : List Entry) (sid : String) : Option Entry :=
  List.find? (fun e => e.id = sid) entries.reverse

/-- The metadata dict re-read from a promoted document: every field of
the written front matter, as parse_scalar would return it. -/
def metaToAssoc (m : LessonMeta) : List (String × MetaVal) :=
  [("id", .vstr m.id), ("level", .vstr m.level), ("status", .vstr m.status),
   ("tags", .vlist m.tags), ("confidence", .vint m.confidence),
   ("transferability", .vint m.transferability),
   ("source_case_ids", .vlist m.source_case_ids),
   ("last_validated_at", .vstr m.last_validated_at), ("title", .vstr m.title),
   ("summary", .vstr m.summary)]

/-- Body of the templated promoted document, as lines. -/
def promotedBody (title sourceId : String) (caseIds : List String) : List String :=
  ["# " ++ title, "", "## Context", "",
   "Promoted from `" ++ sourceId ++ "`.", "",
   "## Guidance", "", "Replace this section with reusable guidance.", "",
   "## Evidence", "", "Source case IDs: " ++ joinSep ", " caseIds]

/-- Does a document already exist at `<folder>/<newId>.md` directly
under the corpus root. -/
def targetExists (c : Corpus) (tgt : TargetLevel) (newId : String) : Bool :=
  let files := match tgt with
    | .pattern => c.patterns
    | .principle => c.principles
  files.any (fun f => decide (f.parentName = tgt.folder) && decide (f.stem = newId))

/-- Write (or, under --force, overwrite) the promoted document in its
target folder. -/
def writeDoc (c : Corpus) (tgt : TargetLevel) (f : RawLesson) : Corpus :=
  match tgt with
  | .pattern =>
    { c with patterns := (c.patterns.filter (fun g => !(decide (g.parentName = f.parentName) && decide (g.stem = f.stem)))) ++ [f] }
  | .principle =>
    { c with principles := (c.principles.filter (fun g => !(decide (g.parentName = f.parentName) && decide (g.stem = f.stem)))) ++ [f] }

/-- promote_lesson.py main, after argument parsing: validations in
source order, then the document write and the index rebuild.  `today`
is `date.today().isoformat()` and `now` the index timestamp.  On any
failure the state is returned untouched together with the error. -/
def promoteRun (today now : String) (st : PromoteState) (args : PromoteArgs) : PromoteResult :=
  let entries := collect_lessons today st.corpus
  match findSource entries args.source_id with
  | none => { state := st, error := some .notFound, written := none }
  | some source =>
    if source.level = "case" ∧ args.target_level ≠ .pattern then
      { state := st, error := some .invalidTransition, written := none }
    else if source.level = "pattern" ∧ args.target_level ≠ .principle then
      { state := st, error := some .invalidTransition, written := none }
    else if source.level = "principle" then
      { state := st, error := some .invalidTransition, written := none }
    else
      let provenance := (args.source_case_ids ++ source.source_case_ids ++
        (if source.level = "case" then [source.id] else [])).dedup
      if args.target_level = .pattern ∧ provenance.length < 2 then
        { state := st, error := some .insufficientProvenance, written := none }
      else if args.target_level = .principle ∧ provenance.length < 3 then
        { state := st, error := some .insufficientProvenance, written := none }
      else
        let source_tags := (source.tags ++ ["promoted"]).dedup
        let title := if pyStrip args.title ≠ "" then pyStrip args.title
          else args.target_level.titled ++ " from " ++ source.id
        let new_id := if pyStrip args.new_id ≠ "" then pyStrip args.new_id
          else args.target_level.name ++ "-" ++ slugify title
        if targetExists st.corpus args.target_level new_id ∧ ¬ args.force then
          { state := st, error := some .conflict, written := none }
        else
          let metadata : LessonMeta :=
            { id := new_id
              level := args.target_level.name
              status := if args.target_level = .pattern then "validated" else "canonical"
              tags := sortedSet source_tags
              confidence := max source.confidence 3
              transferability := max source.transferability 3
              source_case_ids := sortByLE strLe (provenance.filter (fun x => x ≠ ""))
              last_validated_at := today
              title := title
              summary := "Promoted from " ++ source.id ++ " with structured provenance."}
          let newRaw : RawLesson :=
            { parentName := args.target_level.folder
              stem := new_id
              relPath := st.corpus.rootName ++ "/" ++ args.target_level.folder ++ "/" ++ new_id ++ ".md"
              meta := metaToAssoc metadata
              body := promotedBody title source.id metadata.source_case_ids }
          let corpus1 := writeDoc st.corpus args.target_level newRaw
          let entries1 := collect_lessons today corpus1
          { state := { corpus := corpus1, index := some (build_index now entries1) }
            error := none
            written := some metadata }

/-! ### agent_lessons_preflight.py -/

/-- recency_score from agent_lessons_preflight.py; `todayOrd` is the
ordinal of `date.today()`.  A future validation date gives a negative
age, which falls in the first bucket, as in the source. -/
def recency_score (todayOrd : Int) (last_validated_at : String) : Int :=
  match parse_iso_date last_validated_at with
  | none => 0
  | some d =>
    let age : Int := todayOrd - (d : Int)
    if age ≤ 30 then 3 else if age ≤ 90 then 2 else if age ≤ 180 then 1 else 0

/-- The levelWeight table in score_entry. -/
def level_weight (level : String) : Int :=
  if level = "principle" then 30
  else if level = "pattern" then 20
  else if level = "case" then 10
  else 0

/-- The statusBonus table in score_entry. -/
def status_bonus (status : String) : Int :=
  if status = "canonical" then 4
  else if status = "validated" then 2
  else if status = "candidate" then 0
  else if status = "retired" then -999
  else 0

/-- The per-entry score breakdown recorded in the artifact. -/
structure Detail where
  tokenHits : Nat
  tagHits : Nat
  recencyScore : Int
  levelWeight : Int
  statusBonus : Int
deriving DecidableEq

/-- score_entry from agent_lessons_preflight.py.  The entry fields are
the post-default values of the corresponding `entry.get` calls. -/
def score_entry (todayOrd : Int) (entry : Entry) (tokens : List String) : Int × Detail :=
  let lw := level_weight entry.level
  let sb := status_bonus entry.status
  let tags := entry.tags.map pyLower
  let hay := pyLower (joinSep " " [entry.id, entry.title, entry.summary, joinSep " " tags])
  let token_hits := tokens.countP (fun t => pyInStr t hay)
  let tag_hits := tokens.countP (fun t => tags.contains t)
  let rscore := recency_score todayOrd entry.last_validated_at
  let score := lw + (token_hits : Int) * 3 + (tag_hits : Int) * 2 +
    entry.confidence + entry.transferability + sb + rscore
  (score, { tokenHits := token_hits, tagHits := tag_hits, recencyScore := rscore,
            levelWeight := lw, statusBonus := sb })

/-- One selection record, as written into the artifact by
to_selection (the detail dict is merged into the same JSON object). -/
structure SelItem where
  id : String
  level : String
  status : String
  title : String
  path : String
  score : Int
  reason : String
  detail : Detail
deriving DecidableEq

/-- to_selection from agent_lessons_preflight.py. -/
def to_selection (entry : Entry) (score : Int) (detail : Detail) (reason : String) : SelItem :=
  { id := entry.id, level := entry.level, status := entry.status,
    title := entry.title, path := entry.path,
    score := score, reason := reason, detail := detail }

/-- The selection-shaping arguments of the preflight CLI. -/
structure PreArgs where
  top : Int
  principlesMax : Int
  patternsMax : Int
  casesMax : Int
deriving DecidableEq

/-- Python `quotas.get(level)` membership: the quotas dict has exactly
the three level keys. -/
def quotaOf (A : PreArgs) (level : String) : Option Int :=
  if level = "principle" then some A.principlesMax
  else if level = "pattern" then some A.patternsMax
  else if level = "case" then some A.casesMax
  else none

/-- A scored candidate (score, entry, detail). -/
abbrev Cand : Type := Int × Entry × Detail

/-- The candidate filter of the ranked pass: positive score and not
retired. -/
def candidatesOf (todayOrd : Int) (tokens : List String) (entries : List Entry) : List Cand :=
  (entries.map (fun e => ((score_entry todayOrd e tokens).1, e, (score_entry todayOrd e tokens).2))).filter
    (fun c => !(decide (c.1 ≤ 0)) && !(decide (c.2.1.status = "retired")))

/-- The sort key of the ranked pass:
`(score, -LEVEL_ORDER.get(level, 99), id)`. -/
def candKey (c : Cand) : Int × Int × String :=
  (c.1, -(levelOrderD c.2.1.level 99), c.2.1.id)

/-- Comparator realizing `sort(key=candKey, reverse=True)`: a may stay
before b iff the key of b is lexicographically ≤ the key of a. -/
def candGE (a b : Cand) : Bool := key3Le (candKey b) (candKey a)

/-- The `candidates.sort(..., reverse=True)` call. -/
def rankCandidates (cands : List Cand) : List Cand := sortByLE candGE cands

/-- The mutable state of the selection loops. -/
structure SelState where
  selected : List SelItem
  used : String → Nat
  seen : List String

/-- The empty initial state (`selected = []`, `used` all zero,
`seen_ids = set()`). -/
def initSelState : SelState := { selected := [], used := fun _ => 0, seen := [] }

/-- Python `used[level] = used.get(level, 0) + 1`. -/
def bumpUsed (used : String → Nat) (level : String) : String → Nat :=
  fun x => if x = level then used level + 1 else used x

/-- One iteration of the ranked loop body (everything after the break
check): quota check when the level is one of the three known ones,
then the duplicate/empty id check, then admission. -/
def rankedStep (A : PreArgs) (c : Cand) (st : SelState) : SelState :=
  let level := c.2.1.level
  let blocked := match quotaOf A level with
    | some quota => decide ((st.used level : Int) ≥ quota)
    | none => false
  if blocked then st
  else
    let lesson_id := pyStrip c.2.1.id
    if lesson_id = "" ∨ lesson_id ∈ st.seen then st
    else
      { selected := st.selected ++ [to_selection c.2.1 c.1 c.2.2 "ranked"]
        used := bumpUsed st.used level
        seen := st.seen ++ [lesson_id] }

/-- The ranked selection loop, with its `len(selected) >= args.top`
break at the head of each iteration. -/
def rankedPass (A : PreArgs) : List Cand → SelState → SelState
  | [], st => st
  | c :: rest, st =>
    if (st.selected.length : Int) ≥ A.top then st
    else rankedPass A rest (rankedStep A c st)

/-- The ranked pass as run by main: score, filter, sort, select. -/
def rankedSelection (todayOrd : Int) (A : PreArgs) (tokens : List String)
    (entries : List Entry) : SelState :=
  rankedPass A (rankCandidates (candidatesOf todayOrd tokens entries)) initSelState

/-- Fallback tier 1 pre-sort list: `(d or date.min, entry)` for entries
with status validated or canonical (the additional retired check in the
source can never fire after that filter, but is embedded anyway).
`date.min.toordinal()` is 1. -/
def fb1List (entries : List Entry) : List (Int × Entry) :=
  (entries.filter (fun e =>
      (decide (e.status = "validated") || decide (e.status = "canonical")) &&
        !(decide (e.status = "retired")))).map
    (fun e => ((((parse_iso_date e.last_validated_at).getD 1 : Nat) : Int), e))

/-- The fallback sort key `(date, -LEVEL_ORDER.get(level, 99), id)`. -/
def fb1Key (c : Int × Entry) : Int × Int × String :=
  (c.1, -(levelOrderD c.2.level 99), c.2.id)

/-- Comparator for the reverse-sorted fallback list. -/
def fb1GE (a b : Int × Entry) : Bool := key3Le (fb1Key b) (fb1Key a)

/-- The fallback admission loop: fill until top, skipping duplicate or
empty ids; no quota check. -/
def fallbackPass (todayOrd : Int) (A : PreArgs) : List (Int × Entry) → SelState → SelState
  | [], st => st
  | (_, entry) :: rest, st =>
    if (st.selected.length : Int) ≥ A.top then st
    else
      let lesson_id := pyStrip entry.id
      if lesson_id = "" ∨ lesson_id ∈ st.seen then fallbackPass todayOrd A rest st
      else
        fallbackPass todayOrd A rest
          { selected := st.selected ++
              [to_selection entry 0
                { tokenHits := 0, tagHits := 0,
                  recencyScore := recency_score todayOrd entry.last_validated_at,
                  levelWeight := 0, statusBonus := 0 }
                "fallback_latest_validated"]
            used := st.used
            seen := st.seen ++ [lesson_id] }

/-- Python `headings[:top]` (a slice, so a negative top counts from the
end). -/
def pySliceTo (n : Int) (l : List String) : List String :=
  if 0 ≤ n then l.take n.toNat else l.take ((l.length : Int) + n).toNat

/-- A legacy heading rendered as a selection record (fallback tier 2). -/
def legacyItem (fallbackPath heading : String) : SelItem :=
  { id := "legacy-" ++ String.mk (stripHyphens (collapseNonSlug (pyLower heading).data false))
    level := "legacy"
    status := "n/a"
    title := heading
    path := fallbackPath
    score := 0
    reason := "fallback_legacy_headings"
    detail := { tokenHits := 0, tagHits := 0, recencyScore := 0, levelWeight := 0, statusBonus := 0 } }

/-- The whole selection portion of agent_lessons_preflight.py main
(lines 126-201): ranked pass, fallback tier 1 when fewer than top were
chosen, fallback tier 2 (legacy headings) when nothing was chosen.
Returns the selected list and the fallbackUsed flag. -/
def preflightSelect (todayOrd : Int) (A : PreArgs) (tokens : List String)
    (entries : List Entry) (headings : List String) (fallbackPath : String) :
    List SelItem × Bool :=
  let st1 := rankedSelection todayOrd A tokens entries
  let st2 := if (st1.selected.length : Int) < A.top then
      fallbackPass todayOrd A (sortByLE fb1GE (fb1List entries)) st1
    else st1
  let fallbackUsed1 := (st1.selected.length : Int) < A.top
  if st2.selected.length = 0 then
    ((pySliceTo A.top headings).map (legacyItem fallbackPath), true)
  else
    (st2.selected, fallbackUsed1)


/-! ### Sample data used by witnesses and counterexamples -/

/-- The all-zero detail record. -/
def dZero : Detail :=
  { tokenHits := 0, tagHits := 0, recencyScore := 0, levelWeight := 0, statusBonus := 0 }

/-- A sample case-level entry. -/
def eCase : Entry :=
  { id := "a-case", level := "case", status := "candidate", tags := [], confidence := 3,
    transferability := 3, source_case_ids := [], last_validated_at := "", title := "",
    summary := "", path := "p" }

/-- A sample principle-level entry. -/
def ePrin : Entry := { eCase with id := "a-prin", level := "principle" }

/-- A sample case-level entry with a lexicographically greater id. -/
def eCase2 : Entry := { eCase with id := "b-case" }

/-- A sample entry whose level string is not one of the three known
levels (as can be loaded from a prebuilt index file). -/
def eOdd : Entry := { eCase with id := "u1", level := "weird", status := "odd" }

/-- A sample validated pattern-level entry. -/
def ePat : Entry :=
  { id := "p1", level := "pattern", status := "validated", tags := [], confidence := 3,
    transferability := 3, source_case_ids := [], last_validated_at := "", title := "",
    summary := "", path := "p" }

/-- Preflight arguments with a zero quota for patterns. -/
def argsPatZero : PreArgs := { top := 2, principlesMax := 2, patternsMax := 0, casesMax := 2 }

/-- A sample stored case document. -/
def rawC1 : RawLesson :=
  { parentName := "cases", stem := "c1", relPath := "lessons/cases/c1.md",
    meta := [("id", .vstr "c1"), ("level", .vstr "case"), ("status", .vstr "candidate")],
    body := [] }

/-- A sample one-document corpus state. -/
def stC1 : PromoteState :=
  { corpus := { rootName := "lessons", cases := [rawC1], patterns := [], principles := [] },
    index := none }

/-- Promotion arguments citing one extra source case id that is the
empty string. -/
def argsEmptyExtra : PromoteArgs :=
  { source_id := "c1", target_level := .pattern, new_id := "p-x", title := "T",
    source_case_ids := [""], force := false }

/-- Promotion arguments naming a missing source lesson. -/
def argsMissing : PromoteArgs :=
  { source_id := "nope", target_level := .pattern, new_id := "", title := "",
    source_case_ids := [], force := false }

/-- Promotion arguments citing one genuine extra source case id. -/
def argsOk : PromoteArgs :=
  { source_id := "c1", target_level := .pattern, new_id := "p-y", title := "T2",
    source_case_ids := ["c2"], force := false }

/-- The metadata written by the sample successful promotion. -/
def mSample : LessonMeta :=
  ((promoteRun "2026-10-12" "ts" stC1 argsOk).written).getD
    { id := "", level := "", status := "", tags := [], confidence := 0,
      transferability := 0, source_case_ids := [], last_validated_at := "",
      title := "", summary := "" }

/-! ### Stable sort and comparator lemmas -/

theorem insertByLE_perm {α : Type} (le : α → α → Bool) (a : α) (l : List α) :
    (insertByLE le a l).Perm (a :: l) := by
  induction l with
  | nil => simp [insertByLE]
  | cons b bs ih =>
    simp only [insertByLE]
    split
    · exact List.Perm.refl _
    · exact (ih.cons b).trans (List.Perm.swap a b bs)

theorem sortByLE_perm {α : Type} (le : α → α → Bool) (l : List α) :
    (sortByLE le l).Perm l := by
  induction l with
  | nil => simp [sortByLE]
  | cons a as ih => exact (insertByLE_perm le a (sortByLE le as)).trans (ih.cons a)

theorem mem_sortByLE {α : Type} (le : α → α → Bool) (l : List α) (x : α) :
    x ∈ sortByLE le l ↔ x ∈ l :=
  (sortByLE_perm le l).mem_iff

theorem pairwise_insertByLE {α : Type} (le : α → α → Bool)
    (htot : ∀ a b, le a b = true ∨ le b a = true)
    (htrans : ∀ a b c, le a b = true → le b c = true → le a c = true)
    (a : α) (l : List α) (h : l.Pairwise (fun x y => le x y = true)) :
    (insertByLE le a l).Pairwise (fun x y => le x y = true) := by
  induction l with
  | nil => simp [insertByLE]
  | cons b bs ih =>
    rw [List.pairwise_cons] at h
    simp only [insertByLE]
    split
    · rename_i hab
      rw [List.pairwise_cons]
      refine ⟨?_, List.pairwise_cons.2 h⟩
      intro x hx
      rcases List.mem_cons.1 hx with hx | hx
      · exact hx ▸ hab
      · exact htrans a b x hab (h.1 x hx)
    · rename_i hab
      have hba : le b a = true := (htot a b).resolve_left (by simpa using hab)
      rw [List.pairwise_cons]
      refine ⟨?_, ih h.2⟩
      intro x hx
      rcases List.mem_cons.1 ((insertByLE_perm le a bs).mem_iff.1 hx) with hx | hx
      · exact hx ▸ hba
      · exact h.1 x hx

theorem pairwise_sortByLE {α : Type} (le : α → α → Bool)
    (htot : ∀ a b, le a b = true ∨ le b a = true)
    (htrans : ∀ a b c, le a b = true → le b c = true → le a c = true)
    (l : List α) : (sortByLE le l).Pairwise (fun x y => le x y = true) := by
  induction l with
  | nil => simp [sortByLE]
  | cons a as ih => exact pairwise_insertByLE le htot htrans a (sortByLE le as) ih

theorem strLeb_total : ∀ a b : List Char, strLeb a b = true ∨ strLeb b a = true := by
  intro a
  induction a with
  | nil => intro b; left; simp [strLeb]
  | cons x xs ih =>
    intro b
    cases b with
    | nil => right; simp [strLeb]
    | cons y ys =>
      by_cases hxy : x < y
      · left; simp [strLeb, hxy]
      · by_cases hyx : y < x
        · right; simp [strLeb, hyx]
        · rcases ih ys with h | h
          · left; simp [strLeb, hxy, hyx, h]
          · right; simp [strLeb, hyx, hxy, h]

theorem strLeb_trans :
    ∀ a b c : List Char, strLeb a b = true → strLeb b c = true → strLeb a c = true := by
  intro a
  induction a with
  | nil => intro b c _ _; simp [strLeb]
  | cons x xs ih =>
    intro b c hab hbc
    cases b with
    | nil => simp [strLeb] at hab
    | cons y ys =>
      cases c with
      | nil => simp [strLeb] at hbc
      | cons z zs =>
        simp only [strLeb] at hab hbc ⊢
        rcases lt_trichotomy x y with hxy | hxy | hxy <;>
          rcases lt_trichotomy y z with hyz | hyz | hyz
        · simp [lt_trans hxy hyz]
        · subst hyz; simp [hxy]
        · rw [if_neg (lt_asymm hyz), if_pos hyz] at hbc; simp at hbc
        · subst hxy; simp [hyz]
        · subst hxy; subst hyz
          simp only [lt_self_iff_false, if_false] at hab hbc ⊢
          exact ih ys zs hab hbc
        · subst hxy; rw [if_neg (lt_asymm hyz), if_pos hyz] at hbc; simp at hbc
        · rw [if_neg (lt_asymm hxy), if_pos hxy] at hab; simp at hab
        · subst hyz; rw [if_neg (lt_asymm hxy), if_pos hxy] at hab; simp at hab
        · rw [if_neg (lt_asymm hxy), if_pos hxy] at hab; simp at hab

theorem strLe_total : ∀ a b : String, strLe a b = true ∨ strLe b a = true := by
  intro a b; exact strLeb_total a.data b.data

theorem strLe_trans :
    ∀ a b c : String, strLe a b = true → strLe b c = true → strLe a c = true := by
  intro a b c; exact strLeb_trans a.data b.data c.data

theorem thenCmpInt_total {x y : Int} {k1 k2 : Bool} (hk : k1 = true ∨ k2 = true) :
    thenCmpInt x y k1 = true ∨ thenCmpInt y x k2 = true := by
  unfold thenCmpInt
  rcases hk with h | h <;> by_cases hxy : x < y <;> by_cases hyx : y < x <;> simp_all

theorem thenCmpInt_trans {x y z : Int} {k1 k2 k3 : Bool}
    (hk : k1 = true → k2 = true → k3 = true)
    (h1 : thenCmpInt x y k1 = true) (h2 : thenCmpInt y z k2 = true) :
    thenCmpInt x z k3 = true := by
  unfold thenCmpInt at h1 h2 ⊢
  by_cases hxy : x < y <;> by_cases hyx : y < x <;>
    by_cases hyz : y < z <;> by_cases hzy : z < y <;>
    by_cases hxz : x < z <;> by_cases hzx : z < x <;>
    simp_all <;> omega

theorem key3Le_total : ∀ a b : Int × Int × String, key3Le a b = true ∨ key3Le b a = true := by
  intro a b
  unfold key3Le
  exact thenCmpInt_total (thenCmpInt_total (strLe_total a.2.2 b.2.2))

theorem key3Le_trans :
    ∀ a b c : Int × Int × String, key3Le a b = true → key3Le b c = true → key3Le a c = true := by
  intro a b c h1 h2
  unfold key3Le at h1 h2 ⊢
  refine thenCmpInt_trans ?_ h1 h2
  intro g1 g2
  refine thenCmpInt_trans ?_ g1 g2
  exact strLe_trans a.2.2 b.2.2 c.2.2

theorem entrySortLE_total : ∀ a b : Entry, entrySortLE a b = true ∨ entrySortLE b a = true := by
  intro a b
  unfold entrySortLE
  exact thenCmpInt_total (strLe_total a.id b.id)

theorem entrySortLE_trans :
    ∀ a b c : Entry, entrySortLE a b = true → entrySortLE b c = true → entrySortLE a c = true := by
  intro a b c h1 h2
  unfold entrySortLE at h1 h2 ⊢
  exact thenCmpInt_trans (strLe_trans a.id b.id c.id) h1 h2

theorem candGE_total : ∀ a b : Cand, candGE a b = true ∨ candGE b a = true := by
  intro a b
  rcases key3Le_total (candKey b) (candKey a) with h | h
  · exact Or.inl h
  · exact Or.inr h

theorem candGE_trans :
    ∀ a b c : Cand, candGE a b = true → candGE b c = true → candGE a c = true := by
  intro a b c h1 h2
  exact key3Le_trans (candKey c) (candKey b) (candKey a) h2 h1

theorem fb1GE_total : ∀ a b : Int × Entry, fb1GE a b = true ∨ fb1GE b a = true := by
  intro a b
  rcases key3Le_total (fb1Key b) (fb1Key a) with h | h
  · exact Or.inl h
  · exact Or.inr h

theorem fb1GE_trans :
    ∀ a b c : Int × Entry, fb1GE a b = true → fb1GE b c = true → fb1GE a c = true := by
  intro a b c h1 h2
  exact key3Le_trans (fb1Key c) (fb1Key b) (fb1Key a) h2 h1

/-! ### Claim C9: deterministic scan and idempotent rebuild -/

/-- Claim C9: scanning and index building are deterministic on an
unchanged corpus: on the same day, two collect_lessons plus build_index
runs yield identical lessons lists (sorted ascending by
`(levelRank, id)`) and identical stats; the two artifacts differ only
in the generatedAt timestamp. -/
theorem collect_build_deterministic (today t1 t2 : String) (c : Corpus) :
    (build_index t1 (collect_lessons today c)).lessons
        = (build_index t2 (collect_lessons today c)).lessons ∧
    (build_index t1 (collect_lessons today c)).stats
        = (build_index t2 (collect_lessons today c)).stats ∧
    (build_index t1 (collect_lessons today c)).schemaVersion
        = (build_index t2 (collect_lessons today c)).schemaVersion ∧
    (build_index t1 (collect_lessons today c)).generatedAt = t1 ∧
    (collect_lessons today c).Pairwise (fun a b => entrySortLE a b = true) := by
  refine ⟨rfl, rfl, rfl, rfl, ?_⟩
  exact pairwise_sortByLE entrySortLE entrySortLE_total entrySortLE_trans _

/-! ### Claim C2: the ranking tie-break -/

/-- Claim C2 counterexample: two candidates with equal score, one at
case level and one at principle level; the sorted ranking places the
case-level candidate first, so the claim that the higher level is
ranked first is false. -/
theorem rank_tiebreak_counterexample :
    (5, ePrin, dZero).1 = ((5 : Int), eCase, dZero).1 ∧
    ePrin.level = "principle" ∧ eCase.level = "case" ∧
    rankCandidates [(5, ePrin, dZero), (5, eCase, dZero)]
      = [(5, eCase, dZero), (5, ePrin, dZero)] := by
  refine ⟨rfl, rfl, rfl, ?_⟩
  decide

/-- Claim C2 amended: the ranked list is sorted by the comparator of
the source, which, at equal score, ranks the LOWER level first
(case before pattern before principle), and at equal score and level
ranks the lexicographically greater id first. -/
theorem rank_tiebreak_amended :
    (∀ cands : List Cand, (rankCandidates cands).Pairwise (fun a b => candGE a b = true)) ∧
    (∀ a b : Cand, a.1 = b.1 →
      levelOrderD a.2.1.level 99 < levelOrderD b.2.1.level 99 →
      candGE a b = true ∧ candGE b a = false) ∧
    (∀ a b : Cand, a.1 = b.1 → a.2.1.level = b.2.1.level →
      (candGE a b = true ↔ strLe b.2.1.id a.2.1.id = true)) := by
  refine ⟨?_, ?_, ?_⟩
  · intro cands
    exact pairwise_sortByLE candGE candGE_total candGE_trans cands
  · intro a b hs hl
    unfold candGE key3Le candKey thenCmpInt
    dsimp only
    rw [hs]
    constructor
    · split_ifs <;> first | rfl | omega
    · split_ifs <;> first | rfl | omega
  · intro a b hs hl
    unfold candGE key3Le candKey thenCmpInt
    dsimp only
    rw [hs, hl]
    split_ifs <;> first | rfl | (exfalso; omega)

/-- Claim C2 amended, witness: at equal score the case-level candidate
is admitted before the principle-level one by the ranking comparator. -/
theorem rank_tiebreak_amended_witness :
    candGE ((5 : Int), eCase, dZero) ((5 : Int), ePrin, dZero) = true :=
  (rank_tiebreak_amended.2.1 ((5 : Int), eCase, dZero) ((5 : Int), ePrin, dZero) rfl
    (by decide)).1

/-! ### Claim C8: clamping of confidence and transferability -/

/-- Claim C8: normalization of confidence and transferability is total
and always lands in [1,5]: integers below 1 clamp to 1, above 5 clamp
to 5, in-range integers pass through, and an unparsable value (the
`none` outcome of the `int(value)` attempt) maps to the fallback 3. -/
theorem clamp_score_spec (v : Option Int) :
    (1 ≤ clamp_score v 3 ∧ clamp_score v 3 ≤ 5) ∧
    (∀ n : Int, v = some n →
      (n < 1 → clamp_score v 3 = 1) ∧
      (5 < n → clamp_score v 3 = 5) ∧
      (1 ≤ n → n ≤ 5 → clamp_score v 3 = n)) ∧
    (v = none → clamp_score v 3 = 3) := by
  refine ⟨?_, ?_, ?_⟩
  · cases v with
    | none => constructor <;> simp [clamp_score]
    | some n =>
      unfold clamp_score
      simp only [Option.getD]
      constructor <;> split_ifs <;> omega
  · intro n hv
    subst hv
    unfold clamp_score
    simp only [Option.getD]
    refine ⟨?_, ?_, ?_⟩
    · intro h; rw [if_pos h]
    · intro h; rw [if_neg (by omega), if_pos (by omega)]
    · intro h1 h2; rw [if_neg (by omega), if_neg (by omega)]
  · intro hv; subst hv; simp [clamp_score]

/-- Claim C8 witness: an out-of-range integer clamps to the bound. -/
theorem clamp_score_spec_witness : clamp_score (some 7) 3 = 5 :=
  ((clamp_score_spec (some 7)).2.1 7 rfl).2.1 (by decide)

/-! ### Claim C1: quota enforcement -/

theorem rankedStep_count (A : PreArgs) (c : Cand) (st : SelState) (lvl : String)
    (h : st.selected.countP (fun s => decide (s.level = lvl)) = st.used lvl) :
    (rankedStep A c st).selected.countP (fun s => decide (s.level = lvl))
      = (rankedStep A c st).used lvl := by
  unfold rankedStep
  dsimp only
  split
  · exact h
  · split
    · exact h
    · by_cases hl : c.2.1.level = lvl
      · simp [List.countP_append, h, bumpUsed, to_selection, List.countP_cons, hl]
      · simp [List.countP_append, h, bumpUsed, to_selection, List.countP_cons, hl, Ne.symm hl]

theorem rankedStep_used_le (A : PreArgs) (c : Cand) (st : SelState) (lvl : String) (q : Int)
    (hq : quotaOf A lvl = some q) (h : (st.used lvl : Int) ≤ max q 0) :
    ((rankedStep A c st).used lvl : Int) ≤ max q 0 := by
  unfold rankedStep
  dsimp only
  split
  · exact h
  · rename_i hblocked
    split
    · exact h
    · unfold bumpUsed
      dsimp only
      by_cases hl : lvl = c.2.1.level
      · subst hl
        rw [hq] at hblocked
        simp only [decide_eq_true_eq, ge_iff_le, not_le] at hblocked
        rw [if_pos rfl]
        push_cast
        omega
      · rw [if_neg hl]
        exact h

theorem rankedPass_count (A : PreArgs) (cands : List Cand) (st : SelState) (lvl : String)
    (h : st.selected.countP (fun s => decide (s.level = lvl)) = st.used lvl) :
    (rankedPass A cands st).selected.countP (fun s => decide (s.level = lvl))
      = (rankedPass A cands st).used lvl := by
  induction cands generalizing st with
  | nil => simpa [rankedPass] using h
  | cons c rest ih =>
    rw [rankedPass]
    split
    · exact h
    · exact ih _ (rankedStep_count A c st lvl h)

theorem rankedPass_used_le (A : PreArgs) (cands : List Cand) (st : SelState) (lvl : String)
    (q : Int) (hq : quotaOf A lvl = some q) (h : (st.used lvl : Int) ≤ max q 0) :
    ((rankedPass A cands st).used lvl : Int) ≤ max q 0 := by
  induction cands generalizing st with
  | nil => simpa [rankedPass] using h
  | cons c rest ih =>
    rw [rankedPass]
    split
    · exact h
    · exact ih _ (rankedStep_used_le A c st lvl q hq h)

/-- Claim C1 counterexample: with a zero quota for patterns, a ranked
pass that admits nothing, and fallback tier 1 admitting a validated
pattern entry, the final selection holds one pattern-level entry, so
the per-level count exceeds the configured quota when ranked and
fallback admissions are counted together. -/
theorem quota_counterexample :
    quotaOf argsPatZero "pattern" = some 0 ∧
    ¬ (((preflightSelect 0 argsPatZero [] [ePat] [] "LESSONS.md").1.countP
        (fun s => decide (s.level = "pattern")) : Int) ≤ 0) := by
  constructor
  · rfl
  · decide

/-- Claim C1 amended: in the RANKED pass the number of entries chosen
at each of the three known levels never exceeds the configured quota
for that level (never exceeds max(quota, 0), covering a negative
configured quota); the fallback tiers perform no quota check and their
admissions can push a per-level count above the quota. -/
theorem quota_enforced_ranked_pass (todayOrd : Int) (A : PreArgs) (tokens : List String)
    (entries : List Entry) (lvl : String) (q : Int) (hq : quotaOf A lvl = some q) :
    ((rankedSelection todayOrd A tokens entries).selected.countP
        (fun s => decide (s.level = lvl)) : Int) ≤ max q 0 := by
  unfold rankedSelection
  rw [rankedPass_count A _ initSelState lvl (by simp [initSelState])]
  exact rankedPass_used_le A _ initSelState lvl q hq (by simp [initSelState])

/-- Claim C1 amended, witness: in the counterexample scenario the
ranked pass itself admits no pattern entry, within the zero quota. -/
theorem quota_enforced_ranked_pass_witness :
    ((rankedSelection 0 argsPatZero [] [ePat]).selected.countP
        (fun s => decide (s.level = "pattern")) : Int) ≤ max 0 0 :=
  quota_enforced_ranked_pass 0 argsPatZero [] [ePat] "pattern" 0 (by decide)

/-! ### Claim C5: retired entries never selected -/

theorem rankedPass_selected_mem (A : PreArgs) (cands : List Cand) (st : SelState) (x : SelItem)
    (hx : x ∈ (rankedPass A cands st).selected) :
    x ∈ st.selected ∨ ∃ c ∈ cands, x = to_selection c.2.1 c.1 c.2.2 "ranked" := by
  induction cands generalizing st with
  | nil => left; simpa [rankedPass] using hx
  | cons c rest ih =>
    rw [rankedPass] at hx
    split at hx
    · left; exact hx
    · rcases ih _ hx with h | ⟨d, hd, hdx⟩
      · unfold rankedStep at h
        dsimp only at h
        split at h
        · left; exact h
        · split at h
          · left; exact h
          · rcases List.mem_append.1 h with h | h
            · left; exact h
            · right
              refine ⟨c, List.mem_cons_self c rest, ?_⟩
              simpa using h
      · right; exact ⟨d, List.mem_cons_of_mem c hd, hdx⟩

theorem fallbackPass_selected_mem (todayOrd : Int) (A : PreArgs) (l : List (Int × Entry))
    (st : SelState) (x : SelItem) (hx : x ∈ (fallbackPass todayOrd A l st).selected) :
    x ∈ st.selected ∨ ∃ d ∈ l, x = to_selection d.2 0
      { tokenHits := 0, tagHits := 0,
        recencyScore := recency_score todayOrd d.2.last_validated_at,
        levelWeight := 0, statusBonus := 0 } "fallback_latest_validated" := by
  induction l generalizing st with
  | nil => left; simpa [fallbackPass] using hx
  | cons d rest ih =>
    obtain ⟨dv, de⟩ := d
    rw [fallbackPass] at hx
    dsimp only at hx
    split at hx
    · left; exact hx
    · split at hx
      · rcases ih _ hx with h | ⟨e, he, hex⟩
        · left; exact h
        · right; exact ⟨e, List.mem_cons_of_mem _ he, hex⟩
      · rcases ih _ hx with h | ⟨e, he, hex⟩
        · rcases List.mem_append.1 h with h | h
          · left; exact h
          · right
            refine ⟨(dv, de), List.mem_cons_self _ rest, ?_⟩
            simpa using h
        · right; exact ⟨e, List.mem_cons_of_mem _ he, hex⟩

theorem candidatesOf_status (todayOrd : Int) (tokens : List String) (entries : List Entry)
    (c : Cand) (hc : c ∈ candidatesOf todayOrd tokens entries) : c.2.1.status ≠ "retired" := by
  have hp := List.of_mem_filter hc
  simp only [Bool.and_eq_true, Bool.not_eq_eq_eq_not, Bool.not_true, decide_eq_false_iff_not] at hp
  exact hp.2

theorem fb1List_status (entries : List Entry) (d : Int × Entry) (hd : d ∈ fb1List entries) :
    d.2.status ≠ "retired" := by
  unfold fb1List at hd
  rcases List.mem_map.1 hd with ⟨e, he, hde⟩
  have hp := List.of_mem_filter he
  simp only [Bool.and_eq_true, Bool.not_eq_eq_eq_not, Bool.not_true, decide_eq_false_iff_not] at hp
  rw [← hde]
  exact hp.2

theorem rankedSelection_status (todayOrd : Int) (A : PreArgs) (tokens : List String)
    (entries : List Entry) (x : SelItem)
    (hx : x ∈ (rankedSelection todayOrd A tokens entries).selected) : x.status ≠ "retired" := by
  rcases rankedPass_selected_mem A _ initSelState x hx with h | ⟨c, hc, hcx⟩
  · simp [initSelState] at h
  · have hc2 : c ∈ candidatesOf todayOrd tokens entries := (mem_sortByLE candGE _ c).1 hc
    rw [hcx]
    exact candidatesOf_status todayOrd tokens entries c hc2

/-- Claim C5: no entry with status retired ever appears in a preflight
selection, for any task tokens, entry list, quotas and topN: not in
the ranked pass, not in fallback tier 1, and the legacy heading tier
only emits records with the sentinel status value. -/
theorem retired_never_selected (todayOrd : Int) (A : PreArgs) (tokens : List String)
    (entries : List Entry) (headings : List String) (pathStr : String) (x : SelItem)
    (hx : x ∈ (preflightSelect todayOrd A tokens entries headings pathStr).1) :
    x.status ≠ "retired" := by
  unfold preflightSelect at hx
  dsimp only at hx
  split at hx
  · split at hx
    · dsimp only at hx
      rcases List.mem_map.1 hx with ⟨h, hh, hxe⟩
      rw [← hxe]
      exact (by decide : ("n/a" : String) ≠ "retired")
    · dsimp only at hx
      rcases fallbackPass_selected_mem todayOrd A _ _ x hx with h | ⟨d, hd, hdx⟩
      · exact rankedSelection_status todayOrd A tokens entries x h
      · have hd2 : d ∈ fb1List entries := (mem_sortByLE fb1GE _ d).1 hd
        rw [hdx]
        exact fb1List_status entries d hd2
  · split at hx
    · dsimp only at hx
      rcases List.mem_map.1 hx with ⟨h, hh, hxe⟩
      rw [← hxe]
      exact (by decide : ("n/a" : String) ≠ "retired")
    · dsimp only at hx
      exact rankedSelection_status todayOrd A tokens entries x hx

/-- Claim C5 witness: the concrete entry admitted by fallback tier 1
in the quota counterexample scenario has a non-retired status. -/
theorem retired_never_selected_witness :
    (to_selection ePat 0
      { tokenHits := 0, tagHits := 0, recencyScore := 0, levelWeight := 0, statusBonus := 0 }
      "fallback_latest_validated").status ≠ "retired" :=
  retired_never_selected 0 argsPatZero [] [ePat] [] "LESSONS.md" _ (by decide)

/-! ### Claim C10: unknown levels and statuses in preflight -/

theorem quotaOf_none (A : PreArgs) (lvl : String) (h : lvl ∉ LEVELS) : quotaOf A lvl = none := by
  simp only [LEVELS, List.mem_cons, List.not_mem_nil, or_false, not_or] at h
  unfold quotaOf
  rw [if_neg h.2.2, if_neg h.2.1, if_neg h.1]

theorem rankedPass_len_no_quota (A : PreArgs) (cands : List Cand) :
    ∀ st : SelState,
    (∀ c ∈ cands, quotaOf A c.2.1.level = none) →
    (∀ c ∈ cands, pyStrip c.2.1.id ≠ "" ∧ pyStrip c.2.1.id ∉ st.seen) →
    cands.Pairwise (fun c d => pyStrip c.2.1.id ≠ pyStrip d.2.1.id) →
    (rankedPass A cands st).selected.length
      = st.selected.length + min (A.top.toNat - st.selected.length) cands.length := by
  induction cands with
  | nil => intro st _ _ _; simp [rankedPass]
  | cons c rest ih =>
    intro st hq hid hdis
    have h1 := hq c (List.mem_cons_self c rest)
    have h2 := (hid c (List.mem_cons_self c rest)).1
    have h3 := (hid c (List.mem_cons_self c rest)).2
    rw [rankedPass]
    split
    · rename_i htop
      have hz : A.top.toNat - st.selected.length = 0 := by
        simp only [ge_iff_le] at htop
        omega
      simp [hz]
    · rename_i htop
      have hstep : rankedStep A c st =
          { selected := st.selected ++ [to_selection c.2.1 c.1 c.2.2 "ranked"],
            used := bumpUsed st.used c.2.1.level,
            seen := st.seen ++ [pyStrip c.2.1.id] } := by
        simp [rankedStep, h1, h2, h3]
      have hidr : ∀ d ∈ rest, pyStrip d.2.1.id ≠ "" ∧
          pyStrip d.2.1.id ∉ st.seen ++ [pyStrip c.2.1.id] := by
        intro d hd
        refine ⟨(hid d (List.mem_cons_of_mem c hd)).1, ?_⟩
        intro hmem
        rcases List.mem_append.1 hmem with hmem | hmem
        · exact (hid d (List.mem_cons_of_mem c hd)).2 hmem
        · have hne := (List.pairwise_cons.1 hdis).1 d hd
          simp only [List.mem_cons, List.not_mem_nil, or_false] at hmem
          exact hne hmem.symm
      rw [hstep]
      rw [ih _ (fun d hd => hq d (List.mem_cons_of_mem c hd)) hidr (List.pairwise_cons.1 hdis).2]
      simp only [List.length_append, List.length_cons, List.length_nil]
      simp only [not_le] at htop
      omega

/-- Claim C10: in preflight, an entry whose level is not one of case,
pattern, principle is scored with levelWeight 0; its level has no
quota entry, so the ranked pass never blocks it on a quota and admits
any number of such entries up to topN (here: with distinct non-empty
ids, exactly min(topN, candidate count) are chosen); likewise an
unknown status receives statusBonus 0. -/
theorem unknown_level_spec :
    (∀ (todayOrd : Int) (e : Entry) (tokens : List String), e.level ∉ LEVELS →
      (score_entry todayOrd e tokens).2.levelWeight = 0) ∧
    (∀ (todayOrd : Int) (e : Entry) (tokens : List String), e.status ∉ STATUS_VALUES →
      (score_entry todayOrd e tokens).2.statusBonus = 0) ∧
    (∀ (A : PreArgs) (cands : List Cand),
      (∀ c ∈ cands, c.2.1.level ∉ LEVELS) →
      (∀ c ∈ cands, pyStrip c.2.1.id ≠ "") →
      cands.Pairwise (fun c d => pyStrip c.2.1.id ≠ pyStrip d.2.1.id) →
      (rankedPass A cands initSelState).selected.length = min A.top.toNat cands.length) := by
  refine ⟨?_, ?_, ?_⟩
  · intro todayOrd e tokens h
    simp only [LEVELS, List.mem_cons, List.not_mem_nil, or_false, not_or] at h
    unfold score_entry level_weight
    dsimp only
    rw [if_neg h.2.2, if_neg h.2.1, if_neg h.1]
  · intro todayOrd e tokens h
    simp only [STATUS_VALUES, List.mem_cons, List.not_mem_nil, or_false, not_or] at h
    unfold score_entry status_bonus
    dsimp only
    rw [if_neg h.2.2.1, if_neg h.2.1, if_neg h.1, if_neg h.2.2.2]
  · intro A cands hlvl hid hdis
    have h := rankedPass_len_no_quota A cands initSelState
      (fun c hc => quotaOf_none A c.2.1.level (hlvl c hc))
      (fun c hc => ⟨hid c hc, by simp [initSelState]⟩)
      hdis
    simpa [initSelState] using h

/-- Claim C10 witness: one candidate with the unknown level string is
admitted by the ranked pass regardless of the per-level quotas. -/
theorem unknown_level_spec_witness :
    (rankedPass argsPatZero [((5 : Int), eOdd, dZero)] initSelState).selected.length
      = min argsPatZero.top.toNat 1 :=
  unknown_level_spec.2.2 argsPatZero [((5 : Int), eOdd, dZero)]
    (by decide) (by decide) (by decide)

/-! ### Claim C4: failed promotions write nothing -/

theorem promoteRun_split (today now : String) (st : PromoteState) (args : PromoteArgs) :
    (promoteRun today now st args).error = none ∨
    promoteRun today now st args =
      { state := st, error := (promoteRun today now st args).error, written := none } := by
  unfold promoteRun
  dsimp only
  cases hf : findSource (collect_lessons today st.corpus) args.source_id
  · right; rfl
  · dsimp only
    repeat' first
      | (left; rfl)
      | (right; rfl)
      | split

/-- Claim C4: if a promotion call fails for any reason, no document is
written and neither the corpus nor the index changes: every validation
failure returns the input state untouched, and the document write plus
index rebuild happen only on the success path after all four
validations pass. -/
theorem promote_fail_no_writes (today now : String) (st : PromoteState) (args : PromoteArgs)
    (e : PromoteError) (h : (promoteRun today now st args).error = some e) :
    (promoteRun today now st args).state.corpus = st.corpus ∧
    (promoteRun today now st args).state.index = st.index ∧
    (promoteRun today now st args).written = none := by
  rcases promoteRun_split today now st args with h0 | heq
  · rw [h0] at h; cases h
  · refine ⟨?_, ?_, ?_⟩ <;> rw [heq]

/-- Claim C4 witness: a promotion naming a missing source id fails and
leaves the sample corpus and index untouched. -/
theorem promote_fail_no_writes_witness :
    (promoteRun "2026-10-12" "ts" stC1 argsMissing).state.corpus = stC1.corpus ∧
    (promoteRun "2026-10-12" "ts" stC1 argsMissing).state.index = stC1.index ∧
    (promoteRun "2026-10-12" "ts" stC1 argsMissing).written = none :=
  promote_fail_no_writes "2026-10-12" "ts" stC1 argsMissing .notFound (by decide)

/-! ### Claim C6: promotion escalates status and never lowers scores -/

/-- Claim C6: every successful promotion writes status validated for a
pattern target and canonical for a principle target, and sets
confidence and transferability to max(source value, 3), which never
decreases them relative to the source entry. -/
theorem promote_monotone (today now : String) (st : PromoteState) (args : PromoteArgs)
    (m : LessonMeta) (s : Entry)
    (hm : (promoteRun today now st args).written = some m)
    (hs : findSource (collect_lessons today st.corpus) args.source_id = some s) :
    m.status = (if args.target_level = .pattern then "validated" else "canonical") ∧
    m.confidence = max s.confidence 3 ∧
    m.transferability = max s.transferability 3 ∧
    s.confidence ≤ m.confidence ∧ s.transferability ≤ m.transferability := by
  unfold promoteRun at hm
  dsimp only at hm
  rw [hs] at hm
  dsimp only at hm
  repeat' first
    | (exact Option.noConfusion hm)
    | (injection hm with hm; rw [← hm];
        exact ⟨rfl, rfl, rfl, le_max_left _ _, le_max_left _ _⟩)
    | (split at hm)

/-- Claim C6 witness: the sample successful case-to-pattern promotion
writes status validated and the clamped-up scores. -/
theorem promote_monotone_witness :
    mSample.status = (if argsOk.target_level = .pattern then "validated" else "canonical") ∧
    mSample.confidence = max (normalize_lesson_entry "2026-10-12" rawC1).confidence 3 ∧
    mSample.transferability = max (normalize_lesson_entry "2026-10-12" rawC1).transferability 3 ∧
    (normalize_lesson_entry "2026-10-12" rawC1).confidence ≤ mSample.confidence ∧
    (normalize_lesson_entry "2026-10-12" rawC1).transferability ≤ mSample.transferability :=
  promote_monotone "2026-10-12" "ts" stC1 argsOk mSample
    (normalize_lesson_entry "2026-10-12" rawC1) (by decide) (by decide)

/-! ### Claim C7: the legal transitions -/

theorem detect_level_mem (p : String) : detect_level p ∈ LEVELS := by
  unfold detect_level
  dsimp only
  split_ifs <;> simp [LEVELS]

theorem normalize_level_mem (today : String) (f : RawLesson) :
    (normalize_lesson_entry today f).level ∈ LEVELS := by
  unfold normalize_lesson_entry
  dsimp only
  split
  · assumption
  · exact detect_level_mem f.parentName

theorem mem_collect (today : String) (c : Corpus) (e : Entry)
    (he : e ∈ collect_lessons today c) :
    ∃ f ∈ c.allRaw, e = normalize_lesson_entry today f := by
  unfold collect_lessons at he
  have hm := (mem_sortByLE entrySortLE _ e).1 he
  rcases List.mem_map.1 hm with ⟨f, hf, hfe⟩
  exact ⟨f, hf, hfe.symm⟩

theorem findSource_mem (entries : List Entry) (sid : String) (s : Entry)
    (h : findSource entries sid = some s) : s ∈ entries := by
  unfold findSource at h
  exact List.mem_reverse.1 (List.mem_of_find?_eq_some h)

theorem findSource_level_mem (today : String) (c : Corpus) (sid : String) (s : Entry)
    (h : findSource (collect_lessons today c) sid = some s) : s.level ∈ LEVELS := by
  rcases mem_collect today c s (findSource_mem _ _ _ h) with ⟨f, _, hfe⟩
  rw [hfe]
  exact normalize_level_mem today f

/-- Claim C7: with the source lesson found, promotion reports an
invalid transition exactly when the requested pair is not case to
pattern and not pattern to principle: a principle source is always
rejected, as is any same-level or skip-level request. -/
theorem promote_invalid_transition (today now : String) (st : PromoteState) (args : PromoteArgs)
    (s : Entry) (hs : findSource (collect_lessons today st.corpus) args.source_id = some s) :
    ((promoteRun today now st args).error = some .invalidTransition ↔
      ¬ ((s.level = "case" ∧ args.target_level = .pattern) ∨
         (s.level = "pattern" ∧ args.target_level = .principle))) := by
  have hlvl := findSource_level_mem today st.corpus args.source_id s hs
  simp only [LEVELS, List.mem_cons, List.not_mem_nil, or_false] at hlvl
  unfold promoteRun
  dsimp only
  rw [hs]
  dsimp only
  rcases hlvl with h | h | h <;> cases args.target_level <;> rw [h]
  · rw [if_neg (by decide), if_neg (by decide), if_neg (by decide),
      show (if ("case" : String) = "case" then [s.id] else []) = [s.id] by rw [if_pos rfl]]
    apply iff_of_false
    · intro hc
      repeat' split at hc
      all_goals exact absurd hc (by simp)
    · decide
  · rw [if_pos (by decide)]
    exact iff_of_true rfl (by decide)
  · rw [if_neg (by decide), if_pos (by decide)]
    exact iff_of_true rfl (by decide)
  · rw [if_neg (by decide), if_neg (by decide), if_neg (by decide),
      show (if ("pattern" : String) = "case" then [s.id] else []) = [] by rw [if_neg (by decide)]]
    apply iff_of_false
    · intro hc
      repeat' split at hc
      all_goals exact absurd hc (by simp)
    · decide
  · rw [if_neg (by decide), if_neg (by decide), if_pos (by decide)]
    exact iff_of_true rfl (by decide)
  · rw [if_neg (by decide), if_neg (by decide), if_pos (by decide)]
    exact iff_of_true rfl (by decide)

/-- Claim C7 witness: a case-to-pattern promotion of the sample corpus
is exactly the legal pair, so no invalid-transition error is
reported. -/
theorem promote_invalid_transition_witness :
    ((promoteRun "2026-10-12" "ts" stC1 argsOk).error = some .invalidTransition ↔
      ¬ (((normalize_lesson_entry "2026-10-12" rawC1).level = "case" ∧
            argsOk.target_level = .pattern) ∨
         ((normalize_lesson_entry "2026-10-12" rawC1).level = "pattern" ∧
            argsOk.target_level = .principle))) :=
  promote_invalid_transition "2026-10-12" "ts" stC1 argsOk
    (normalize_lesson_entry "2026-10-12" rawC1) (by decide)

/-! ### Claim C3: provenance of the written promoted entry -/

theorem mem_sortedSet (l : List String) (x : String) : x ∈ sortedSet l ↔ x ∈ l := by
  unfold sortedSet
  rw [mem_sortByLE]
  exact List.mem_dedup

theorem normalize_case_ids_ne (v : Option MetaVal) (x : String)
    (hx : x ∈ normalize_case_ids v) : x ≠ "" := by
  cases v with
  | none => simp [normalize_case_ids] at hx
  | some w =>
    cases w with
    | vstr s =>
      unfold normalize_case_ids at hx
      rw [mem_sortedSet] at hx
      simpa using List.of_mem_filter hx
    | vlist l =>
      unfold normalize_case_ids at hx
      rw [mem_sortedSet] at hx
      simpa using List.of_mem_filter hx
    | vint n => simp [normalize_case_ids] at hx
    | vbool b => simp [normalize_case_ids] at hx

theorem normalize_id_ne (today : String) (f : RawLesson) (hstem : f.stem ≠ "") :
    (normalize_lesson_entry today f).id ≠ "" := by
  unfold normalize_lesson_entry
  dsimp only
  split
  · exact hstem
  · assumption

/-- Claim C3 counterexample: a successful case-to-pattern promotion
whose one extra source case id is the empty string; the size check
counts the empty string as a provenance member, but the written
source_case_ids drops it, so the written set has only one distinct
member. -/
theorem promote_provenance_counterexample :
    argsEmptyExtra.source_case_ids = [""] ∧
    argsEmptyExtra.target_level = .pattern ∧
    (promoteRun "2026-10-12" "ts" stC1 argsEmptyExtra).error = none ∧
    ((promoteRun "2026-10-12" "ts" stC1 argsEmptyExtra).written.map
        (fun m => m.source_case_ids)) = some ["c1"] := by
  refine ⟨rfl, rfl, by decide, by decide⟩

/-- Claim C3 amended: for every successful promotion whose extra
source case ids contain no empty string (over a corpus of documents
with non-empty filename stems), the source_case_ids list written into
the new document has at least 2 distinct members for a pattern target
and at least 3 for a principle target; whitespace-only ids are kept
and counted, but an empty-string extra id would inflate the size check
while being dropped from the written list. -/
theorem promote_provenance_written (today now : String) (st : PromoteState) (args : PromoteArgs)
    (m : LessonMeta)
    (hm : (promoteRun today now st args).written = some m)
    (hne : "" ∉ args.source_case_ids)
    (hstem : ∀ f ∈ st.corpus.allRaw, f.stem ≠ "") :
    (if args.target_level = .pattern then 2 ≤ m.source_case_ids.length
      else 3 ≤ m.source_case_ids.length) ∧ m.source_case_ids.Nodup := by
  unfold promoteRun at hm
  dsimp only at hm
  cases hf : findSource (collect_lessons today st.corpus) args.source_id <;> rw [hf] at hm
  · cases hm
  · rename_i s
    dsimp only at hm
    have hsid : s.id ≠ "" := by
      rcases mem_collect today st.corpus s (findSource_mem _ _ _ hf) with ⟨f, hfmem, hfe⟩
      rw [hfe]
      exact normalize_id_ne today f (hstem f hfmem)
    have hsrc : ∀ x ∈ s.source_case_ids, x ≠ "" := by
      rcases mem_collect today st.corpus s (findSource_mem _ _ _ hf) with ⟨f, hfmem, hfe⟩
      rw [hfe]
      intro x hx
      exact normalize_case_ids_ne _ x hx
    by_cases h1 : (s.level = "case" ∧ args.target_level ≠ TargetLevel.pattern)
    · rw [if_pos h1] at hm; exact Option.noConfusion hm
    · rw [if_neg h1] at hm
      by_cases h2 : (s.level = "pattern" ∧ args.target_level ≠ TargetLevel.principle)
      · rw [if_pos h2] at hm; exact Option.noConfusion hm
      · rw [if_neg h2] at hm
        by_cases h3 : s.level = "principle"
        · rw [if_pos h3] at hm; exact Option.noConfusion hm
        · rw [if_neg h3] at hm
          set P := (args.source_case_ids ++ s.source_case_ids ++
            (if s.level = "case" then [s.id] else [])).dedup with hP
          have hprov : ∀ x ∈ P, x ≠ "" := by
            intro x hx
            rw [hP, List.mem_dedup] at hx
            rcases List.mem_append.1 hx with hx | hx
            · rcases List.mem_append.1 hx with hx | hx
              · intro hxe; rw [hxe] at hx; exact hne hx
              · exact hsrc x hx
            · split at hx
              · simp only [List.mem_cons, List.not_mem_nil, or_false] at hx
                rw [hx]; exact hsid
              · simp at hx
          by_cases h4 : (args.target_level = TargetLevel.pattern ∧ P.length < 2)
          · rw [if_pos h4] at hm; exact Option.noConfusion hm
          · rw [if_neg h4] at hm
            by_cases h5 : (args.target_level = TargetLevel.principle ∧ P.length < 3)
            · rw [if_pos h5] at hm; exact Option.noConfusion hm
            · rw [if_neg h5] at hm
              have hfl : P.filter (fun x => decide (x ≠ "")) = P :=
                List.filter_eq_self.2 (fun a ha => by simpa using hprov a ha)
              have hlen : (sortByLE strLe (P.filter (fun x => decide (x ≠ "")))).length
                  = P.length := by
                rw [hfl]; exact (sortByLE_perm strLe P).length_eq
              have hnd : (sortByLE strLe (P.filter (fun x => decide (x ≠ "")))).Nodup := by
                rw [hfl]
                exact ((sortByLE_perm strLe P).symm).nodup (by rw [hP]; exact List.nodup_dedup _)
              repeat' first
                | (exact Option.noConfusion hm)
                | (split at hm)
              all_goals (
                injection hm with hm
                rw [← hm]
                dsimp only
                constructor
                · by_cases htl : args.target_level = TargetLevel.pattern
                  · rw [if_pos htl, hlen]
                    rcases Nat.lt_or_ge P.length 2 with hlt | hge2
                    · exact absurd ⟨htl, hlt⟩ h4
                    · exact hge2
                  · have ht2 : args.target_level = TargetLevel.principle := by
                      cases htl2 : args.target_level
                      · exact absurd htl2 htl
                      · rfl
                    rw [if_neg htl, hlen]
                    rcases Nat.lt_or_ge P.length 3 with hlt | hge3
                    · exact absurd ⟨ht2, hlt⟩ h5
                    · exact hge3
                · exact hnd)

/-- Claim C3 amended, witness: the sample promotion whose extra source
case id is the non-empty string c2 writes a two-member provenance
list. -/
theorem promote_provenance_written_witness :
    (if argsOk.target_level = .pattern then 2 ≤ mSample.source_case_ids.length
      else 3 ≤ mSample.source_case_ids.length) ∧ mSample.source_case_ids.Nodup :=
  promote_provenance_written "2026-10-12" "ts" stC1 argsOk mSample
    (by decide) (by decide) (by decide)

end Lessons
